import Mathlib

/-!
A formal model of the `specialeffects` library.

The definitions below are translated from the Python sources:

* `specialeffects/easing.py` — easing functions, HSV color interpolation and
  the time-driven color generator;
* `specialeffects/specialeffects.py` — the `Effect` variants, `Section`
  execution semantics, and the `SpecialEffect` builder/player.

Pure numeric code is modelled over `ℝ` (for the transcendental easing
functions) and `ℚ` (for the color interpolation, where Python `int()`
truncation and `%` are modelled explicitly).  The cooperative execution of
effect trees is modelled by a big-step trace relation; the builder is
modelled as explicit state passing with an object heap for the shared,
mutable `effects` lists of named sections.
-/

namespace SpecialEffectsModel

/-! ## Easing functions (`easing.py`, lines 5–46)

Each Python function `f(t)` becomes a function `ℝ → ℝ`.  Python's literal
`0.5` is exact in binary floating point, so the real-number translation is
faithful to the branch structure.
-/

/-- `def linear(t): return t` -/
def linear (t : ℝ) : ℝ := t

/-- `def quadratic_in(t): return t**2` -/
noncomputable def quadratic_in (t : ℝ) : ℝ := t ^ 2

/-- `def quadratic_out(t): return 1 - (1 - t) ** 2` -/
noncomputable def quadratic_out (t : ℝ) : ℝ := 1 - (1 - t) ^ 2

/-- `def quadratic_in_out(t): return 2*t**2 if t < 0.5 else 1 - (-2*t + 2)**2/2` -/
noncomputable def quadratic_in_out (t : ℝ) : ℝ :=
  if t < 0.5 then 2 * t ^ 2 else 1 - (-2 * t + 2) ^ 2 / 2

/-- `def cubic_in(t): return t**3` -/
noncomputable def cubic_in (t : ℝ) : ℝ := t ^ 3

/-- `def cubic_out(t): return 1 - (1 - t) ** 3` -/
noncomputable def cubic_out (t : ℝ) : ℝ := 1 - (1 - t) ^ 3

/-- `def cubic_in_out(t): return 4*t**3 if t < 0.5 else 1 - (-2*t + 2)**3/2` -/
noncomputable def cubic_in_out (t : ℝ) : ℝ :=
  if t < 0.5 then 4 * t ^ 3 else 1 - (-2 * t + 2) ^ 3 / 2

/-- `def sine_in(t): return 1 - math.cos((t * math.pi) / 2)` -/
noncomputable def sine_in (t : ℝ) : ℝ := 1 - Real.cos ((t * Real.pi) / 2)

/-- `def sine_out(t): return math.sin((t * math.pi) / 2)` -/
noncomputable def sine_out (t : ℝ) : ℝ := Real.sin ((t * Real.pi) / 2)

/-- `def sine_in_out(t): return -(math.cos(math.pi * t) - 1) / 2` -/
noncomputable def sine_in_out (t : ℝ) : ℝ := -(Real.cos (Real.pi * t) - 1) / 2

/-! ## Color interpolation (`easing.py`, lines 49–62)

Colors are HSV triples.  Python `int()` truncates toward zero, and the float
`%` operator with a positive modulus returns `x - m * floor(x / m)`.
-/

/-- Python `int()` applied to a rational: truncation toward zero. -/
def pyInt (q : ℚ) : ℤ := if q < 0 then ⌈q⌉ else ⌊q⌋

/-- Python `x % m` on numbers (result has the sign of the divisor `m`;
for `m > 0` it is `x - m * ⌊x / m⌋`). -/
def pyMod (x m : ℚ) : ℚ := x - m * ⌊x / m⌋

/-- `interpolate_color(start_color, end_color, progress)`:
hue is blended after adding 360 to the end hue when `end_h < start_h`, then
reduced `% 360`; saturation and value are blended linearly; all three
components go through `int()`. -/
def interpolate_color (start_color end_color : ℚ × ℚ × ℚ) (progress : ℚ) :
    ℤ × ℤ × ℤ :=
  let start_h := start_color.1
  let start_s := start_color.2.1
  let start_v := start_color.2.2
  let end_h0 := end_color.1
  let end_s := end_color.2.1
  let end_v := end_color.2.2
  -- `if end_h < start_h: end_h += 360`
  let end_h := if end_h0 < start_h then end_h0 + 360 else end_h0
  -- `interpolated_h = (start_h + (end_h - start_h) * progress) % 360`
  let interpolated_h := pyMod (start_h + (end_h - start_h) * progress) 360
  let interpolated_s := start_s + (end_s - start_s) * progress
  let interpolated_v := start_v + (end_v - start_v) * progress
  (pyInt interpolated_h, pyInt interpolated_s, pyInt interpolated_v)

/-- `pyMod x 360` is `360` times the fractional part of `x / 360`. -/
theorem pyMod_eq_fract (x : ℚ) : pyMod x 360 = 360 * Int.fract (x / 360) := by
  unfold pyMod Int.fract
  field_simp

theorem pyMod_nonneg (x : ℚ) : 0 ≤ pyMod x 360 := by
  rw [pyMod_eq_fract]
  have h := Int.fract_nonneg (x / 360)
  positivity

theorem pyMod_lt (x : ℚ) : pyMod x 360 < 360 := by
  rw [pyMod_eq_fract]
  have h := Int.fract_lt_one (x / 360)
  nlinarith

/-- C8: every easing function of the required set maps 0 to 0 and 1 to 1.
In this exact real-number model all ten identities are exact (the spec asks
for exactness only for `linear` and floating tolerance for the others; the
idealized model satisfies them all exactly). -/
theorem c8_easing_endpoints :
    linear 0 = 0 ∧ linear 1 = 1 ∧
    quadratic_in 0 = 0 ∧ quadratic_in 1 = 1 ∧
    quadratic_out 0 = 0 ∧ quadratic_out 1 = 1 ∧
    quadratic_in_out 0 = 0 ∧ quadratic_in_out 1 = 1 ∧
    cubic_in 0 = 0 ∧ cubic_in 1 = 1 ∧
    cubic_out 0 = 0 ∧ cubic_out 1 = 1 ∧
    cubic_in_out 0 = 0 ∧ cubic_in_out 1 = 1 ∧
    sine_in 0 = 0 ∧ sine_in 1 = 1 ∧
    sine_out 0 = 0 ∧ sine_out 1 = 1 ∧
    sine_in_out 0 = 0 ∧ sine_in_out 1 = 1 := by
  refine ⟨rfl, rfl, ?_, ?_, ?_, ?_, ?_, ?_, ?_, ?_, ?_, ?_, ?_, ?_, ?_, ?_,
    ?_, ?_, ?_, ?_⟩
  · norm_num [quadratic_in]
  · norm_num [quadratic_in]
  · norm_num [quadratic_out]
  · norm_num [quadratic_out]
  · rw [quadratic_in_out, if_pos (by norm_num)]; norm_num
  · rw [quadratic_in_out, if_neg (by norm_num)]; norm_num
  · norm_num [cubic_in]
  · norm_num [cubic_in]
  · norm_num [cubic_out]
  · norm_num [cubic_out]
  · rw [cubic_in_out, if_pos (by norm_num)]; norm_num
  · rw [cubic_in_out, if_neg (by norm_num)]; norm_num
  · rw [sine_in]; norm_num
  · rw [sine_in, one_mul, Real.cos_pi_div_two]; norm_num
  · rw [sine_out]; norm_num
  · rw [sine_out, one_mul, Real.sin_pi_div_two]
  · rw [sine_in_out]; norm_num
  · rw [sine_in_out, mul_one, Real.cos_pi]; norm_num

/-- C4: `interpolate_color` blends saturation and value linearly, blends hue
with the wraparound correction (add 360 to the end hue when it is below the
start hue, blend, then reduce `% 360`, which lands in `[0, 360)`), truncates
every component with `int()`, and in particular interpolating from hue 350
to hue 10 at progress `1/2` yields hue 0 (not 180). -/
theorem c4_interpolate_color :
    (∀ sh ss sv eh es ev p : ℚ,
      interpolate_color (sh, ss, sv) (eh, es, ev) p =
        (pyInt (pyMod (sh + ((if eh < sh then eh + 360 else eh) - sh) * p) 360),
         pyInt (ss + (es - ss) * p),
         pyInt (sv + (ev - sv) * p))) ∧
    (∀ x : ℚ, 0 ≤ pyMod x 360 ∧ pyMod x 360 < 360) ∧
    interpolate_color (350, 100, 100) (10, 100, 100) (1 / 2) = (0, 100, 100) ∧
    (interpolate_color (350, 100, 100) (10, 100, 100) (1 / 2)).1 ≠ 180 := by
  have hex : interpolate_color (350, 100, 100) (10, 100, 100) (1 / 2) =
      (0, 100, 100) := by
    have h10 : ((10 : ℚ) < 350) = True := by norm_num
    have hmod : pyMod (350 + ((10 : ℚ) + 360 - 350) * (1 / 2)) 360 = 0 := by
      unfold pyMod
      norm_num
    simp only [interpolate_color, h10, if_true, hmod]
    norm_num [pyInt]
  exact ⟨fun sh ss sv eh es ev p => rfl,
    fun x => ⟨pyMod_nonneg x, pyMod_lt x⟩, hex, by rw [hex]; decide⟩

/-! ## Effect trees and their cooperative execution
(`specialeffects.py`, classes `Effect`, `SoundEffect`, `LightEffect`,
`Section`, and `SpecialEffect._play_async`)

An effect tree is a leaf (a `SoundEffect`/`LightEffect`-style effect whose
single iteration performs one awaited action) or a `Section`.  Repeat counts
are Python values: `None` (unbounded) or an arbitrary `int`; `range(n)` of a
non-positive `n` is empty, which the model reflects with `Int.toNat`.

Execution is modelled by big-step relations over event traces:

* `RunR e t r` — `e.run()` terminates, performing the event trace `t` and
  returning the Python value `r`.  `Effect.run`/`Section.run` bodies have no
  `return` statement, so every rule concludes with return value `.retNone`.
* `RunChild` — `Section._run_effect(effect)`: a child that is a `Section`
  with `repeat is None` is launched with `asyncio.create_task` (recorded as
  a `spawn` event) and the `Task` handle is *returned*; any other child is
  awaited inline.
* `BodyR` — one iteration of `Section.run`'s loop body: sequential children
  are awaited in list order (their `_run_effect` return values discarded);
  parallel mode is `asyncio.gather`, whose events are some interleaving of
  the children's traces.
* `PlaySeq` — `SpecialEffect._play_async`: top-level effects run
  sequentially via `effect.run()`, and every result that is an
  `asyncio.Task` is collected for the final `gather`.
-/

/-- An effect tree: leaves are atomic effects (one awaited action per
iteration of the repeat loop), `sec` is a `Section`. -/
inductive REff where
  | leaf (id : Nat) (repeatCount : Option Int)
  | sec (children : List REff) (parallel : Bool) (repeatCount : Option Int)

/-- Events observed while an effect tree runs: `act id` is one awaited
iteration of leaf `id`; `spawn c` records `asyncio.create_task(c.run())`. -/
inductive Ev where
  | act (id : Nat)
  | spawn (child : REff)

/-- The Python value returned by `run()` / `_run_effect()`: `None`, or an
`asyncio.Task` driving the given child. -/
inductive RetV where
  | retNone
  | retTask (child : REff)

/-- The test in `Section._run_effect`:
`isinstance(effect, Section) and effect.repeat is None`. -/
def isUnboundedSection : REff → Bool
  | .sec _ _ none => true
  | _ => false

/-- `t` is an interleaving of `l₁` and `l₂` (order within each preserved). -/
inductive Interleave : List Ev → List Ev → List Ev → Prop where
  | nil : Interleave [] [] []
  | left {x xs ys zs} : Interleave xs ys zs → Interleave (x :: xs) ys (x :: zs)
  | right {y xs ys zs} : Interleave xs ys zs → Interleave xs (y :: ys) (y :: zs)

/-- `t` is an interleaving of all the traces in `ts`. -/
inductive InterleaveAll : List (List Ev) → List Ev → Prop where
  | nil : InterleaveAll [] []
  | cons {t ts rest r} : InterleaveAll ts rest → Interleave t rest r →
      InterleaveAll (t :: ts) r

mutual
/-- Big-step: `e.run()` terminates with trace `t`, returning `r`.  A leaf
with `repeat=n` awaits its action `range(n)`-many times (`SoundEffect.run` /
`LightEffect.run`); a `Section` with `repeat=n` runs its loop body
`range(n)`-many times (`Section.run`).  Unbounded (`repeat=None`) effects
never terminate, so they admit no rule.  Neither body has a `return`
statement, hence the return value is always `.retNone`. -/
inductive RunR : REff → List Ev → RetV → Prop where
  | leaf (id : Nat) (n : Int) :
      RunR (.leaf id (some n)) (List.replicate n.toNat (.act id)) .retNone
  | sec {cs par t} (n : Int) :
      IterR cs par n.toNat t → RunR (.sec cs par (some n)) t .retNone

/-- `k` remaining iterations of `Section.run`'s repeat loop. -/
inductive IterR : List REff → Bool → Nat → List Ev → Prop where
  | zero (cs : List REff) (par : Bool) : IterR cs par 0 []
  | succ {cs par k t t'} : BodyR cs par t → IterR cs par k t' →
      IterR cs par (k + 1) (t ++ t')

/-- One iteration of the loop body: sequential (`for effect in
self.effects: await self._run_effect(effect)`, return values discarded) or
parallel (`asyncio.gather(*[self._run_effect(e) for e in self.effects])`). -/
inductive BodyR : List REff → Bool → List Ev → Prop where
  | seqNil : BodyR [] false []
  | seqCons {c cs t r t'} : RunChild c t r → BodyR cs false t' →
      BodyR (c :: cs) false (t ++ t')
  | par {cs ts t} : ChildrenR cs ts → InterleaveAll ts t → BodyR cs true t

/-- The children's individual `_run_effect` traces, in list order. -/
inductive ChildrenR : List REff → List (List Ev) → Prop where
  | nil : ChildrenR [] []
  | cons {c cs t r ts} : RunChild c t r → ChildrenR cs ts →
      ChildrenR (c :: cs) (t :: ts)

/-- `Section._run_effect(effect)`: an unbounded nested `Section` is spawned
as a background task (`create_task` + `await asyncio.sleep(0)`) and the
`Task` handle is returned; every other child is awaited inline and its
`run()` result (always `None`) is returned. -/
inductive RunChild : REff → List Ev → RetV → Prop where
  | spawn (cs : List REff) (par : Bool) :
      RunChild (.sec cs par none) [.spawn (.sec cs par none)]
        (.retTask (.sec cs par none))
  | await {e t r} : isUnboundedSection e = false → RunR e t r →
      RunChild e t r
end

/-- The `asyncio.Task` handles among a `run()` result
(`if isinstance(result, asyncio.Task): tasks.append(result)`). -/
def retTasks : RetV → List REff
  | .retNone => []
  | .retTask c => [c]

/-- `SpecialEffect._play_async`: run the top-level effects sequentially via
`await effect.run()`, collecting every result that is an `asyncio.Task`. -/
inductive PlaySeq : List REff → List REff → Prop where
  | nil : PlaySeq [] []
  | cons {e es t r cs} : RunR e t r → PlaySeq es cs →
      PlaySeq (e :: es) (retTasks r ++ cs)

/-- `play()` returns: the top-level loop of `_play_async` terminates and the
final `await asyncio.gather(*tasks)` over the collected handles terminates,
i.e. every collected background task itself completes. -/
def PlayTerminates (effs : List REff) : Prop :=
  ∃ cs, PlaySeq effs cs ∧ ∀ c ∈ cs, ∃ t r, RunR c t r

/-- Every terminating `run()` returns `None`: no rule of `RunR` produces a
`Task`, because neither `Effect.run` variant nor `Section.run` has a
`return` statement. -/
theorem runR_ret {e t r} (h : RunR e t r) : r = .retNone := by
  cases h <;> rfl

/-- Consequently `_play_async` never collects any background-task handle. -/
theorem playSeq_collects_nothing {es cs} (h : PlaySeq es cs) : cs = [] := by
  induction h with
  | nil => rfl
  | cons hrun _ ih =>
    rename_i e es t r cs'
    rw [runR_ret hrun] at *
    simpa [retTasks] using ih

/-- An unbounded `Section` (`repeat=None`) has no terminating `run()`. -/
theorem unbounded_sec_no_run {cs par} : ¬ ∃ t r, RunR (.sec cs par none) t r := by
  rintro ⟨t, r, h⟩
  cases h

/-! ### Claims C1, C3 and C6 -/

/-- The unbounded child section of the C1 scenario. -/
def c1Child : REff := .sec [] false none

/-- The bounded parent: `Section([Section([], repeat=None)], repeat=1)`. -/
def c1Parent : REff := .sec [c1Child] false (some 1)

/-- C1: with a bounded parent Section containing an unbounded child Section
as the only top-level effect, the parent's `run()` terminates without
waiting for the child (spawning it as a background task), yet `play()` also
terminates: `Section.run` discards the `Task` handle returned by
`_run_effect`, so `_play_async` collects no handle at all and its final
`gather` is over the empty list, even though the spawned child never
completes.  This contradicts the claim that `play()` awaits every spawned
background task before returning. -/
theorem c1_play_drops_background_handles :
    RunR c1Parent [.spawn c1Child] .retNone ∧
    (¬ ∃ t r, RunR c1Child t r) ∧
    (∀ cs, PlaySeq [c1Parent] cs → cs = []) ∧
    PlayTerminates [c1Parent] := by
  have hrun : RunR c1Parent [.spawn c1Child] .retNone := by
    have hbody : BodyR [c1Child] false ([.spawn c1Child] ++ []) :=
      BodyR.seqCons (RunChild.spawn [] false) BodyR.seqNil
    have hiter : IterR [c1Child] false 1 (([.spawn c1Child] ++ []) ++ []) :=
      IterR.succ hbody (IterR.zero _ _)
    have : IterR [c1Child] false ((1 : Int)).toNat [.spawn c1Child] := by
      simpa using hiter
    exact RunR.sec 1 this
  refine ⟨hrun, unbounded_sec_no_run, fun cs h => playSeq_collects_nothing h, ?_⟩
  exact ⟨[], by simpa [retTasks] using
    PlaySeq.cons hrun PlaySeq.nil, by simp⟩

/-- The attribute record written by `Effect.__init__` (`self.repeat = repeat`). -/
structure EffectBase where
  repeatCount : Option Int
deriving DecidableEq

/-- `Effect.__init__(self, repeat=1)`: a bare assignment with no validation;
there is no code path that raises, so the result is always `.ok`. -/
def effectInit (repeatArg : Option Int) : Except String EffectBase :=
  .ok ⟨repeatArg⟩

/-- The attribute record written by `Section.__init__`. -/
structure SectionBase where
  effectsArg : List REff
  parallel : Bool
  repeatCount : Option Int
  name : Option String

/-- `Section.__init__(self, effects, parallel=False, repeat=1, name=None)`:
calls `super().__init__(repeat)` (the unvalidated assignment above) and
stores the remaining arguments; again no code path raises. -/
def sectionInit (effectsArg : List REff) (parallelArg : Bool)
    (repeatArg : Option Int) (nameArg : Option String) :
    Except String SectionBase :=
  .ok ⟨effectsArg, parallelArg, repeatArg, nameArg⟩

/-- C3 counterexample: constructing an `Effect` (or `Section`) with
`repeat=0` does **not** fail fast — both constructors succeed — and the
resulting effect's `run()` performs its action zero times (`range(0)` is
empty), i.e. it silently does nothing. -/
theorem c3_counterexample :
    effectInit (some 0) = .ok ⟨some 0⟩ ∧
    sectionInit [] false (some 0) none = .ok ⟨[], false, some 0, none⟩ ∧
    RunR (.leaf 0 (some 0)) [] .retNone := by
  refine ⟨rfl, rfl, ?_⟩
  simpa using RunR.leaf 0 0

/-- C3 (amended): construction never validates `repeat`: for every
non-positive `r`, `Effect.__init__`/`Section.__init__` succeed, and the
constructed effect's `run()` terminates immediately with an empty trace
(`range(r)` is empty for `r ≤ 0`). -/
theorem c3_no_validation (r : Int) (hr : r ≤ 0) (id : Nat) :
    effectInit (some r) = .ok ⟨some r⟩ ∧
    sectionInit [] false (some r) none = .ok ⟨[], false, some r, none⟩ ∧
    RunR (.leaf id (some r)) [] .retNone ∧
    RunR (.sec [] false (some r)) [] .retNone := by
  have hz : r.toNat = 0 := Int.toNat_of_nonpos hr
  refine ⟨rfl, rfl, ?_, ?_⟩
  · have := RunR.leaf id r
    rwa [hz, List.replicate_zero] at this
  · refine RunR.sec r ?_
    rw [hz]
    exact IterR.zero _ _

/-- C3 witness: the amended statement at `r = -1`. -/
theorem c3_no_validation_witness :
    effectInit (some (-1)) = .ok ⟨some (-1)⟩ ∧
    sectionInit [] false (some (-1)) none = .ok ⟨[], false, some (-1), none⟩ ∧
    RunR (.leaf 7 (some (-1))) [] .retNone ∧
    RunR (.sec [] false (some (-1))) [] .retNone :=
  c3_no_validation (-1) (by decide) 7

/-! ### Inversion lemmas for the run relations -/

theorem iterR_zero_inv {cs par t} (h : IterR cs par 0 t) : t = [] := by
  cases h
  rfl

theorem iterR_succ_inv {cs par k t} (h : IterR cs par (k + 1) t) :
    ∃ tb tr, BodyR cs par tb ∧ IterR cs par k tr ∧ t = tb ++ tr := by
  cases h
  exact ⟨_, _, by assumption, by assumption, rfl⟩

theorem bodyR_nil_inv {t} (h : BodyR [] false t) : t = [] := by
  cases h
  rfl

theorem bodyR_cons_inv {c cs t} (h : BodyR (c :: cs) false t) :
    ∃ t1 r1 t2, RunChild c t1 r1 ∧ BodyR cs false t2 ∧ t = t1 ++ t2 := by
  cases h
  exact ⟨_, _, _, by assumption, by assumption, rfl⟩

/-- For a child that is an unbounded `Section`, `_run_effect` necessarily
takes the `create_task` branch. -/
theorem runChild_unbounded_inv {cs par t r}
    (h : RunChild (.sec cs par none) t r) :
    t = [.spawn (.sec cs par none)] ∧ r = .retTask (.sec cs par none) := by
  cases h with
  | spawn => exact ⟨rfl, rfl⟩
  | await hb _ => simp [isUnboundedSection] at hb

/-- For any other child, `_run_effect` awaits the child's `run()` inline. -/
theorem runChild_not_unbounded_inv {e t r}
    (he : isUnboundedSection e = false) (h : RunChild e t r) : RunR e t r := by
  cases h with
  | spawn => simp [isUnboundedSection] at he
  | await _ hr => exact hr

theorem runR_leaf_inv {id : Nat} {n : Int} {t r}
    (h : RunR (.leaf id (some n)) t r) :
    t = List.replicate n.toNat (.act id) ∧ r = .retNone := by
  cases h
  exact ⟨rfl, rfl⟩

theorem runR_sec_inv {cs par t r} {n : Int}
    (h : RunR (.sec cs par (some n)) t r) :
    IterR cs par n.toNat t ∧ r = .retNone := by
  cases h
  exact ⟨by assumption, rfl⟩

/-- One sequential loop-body pass over two children with unique traces. -/
theorem body_two_inv {c1 c2 : REff} {t1 t2 : List Ev}
    (h1 : isUnboundedSection c1 = false) (h2 : isUnboundedSection c2 = false)
    (hd1 : ∀ t r, RunR c1 t r → t = t1) (hd2 : ∀ t r, RunR c2 t r → t = t2)
    {t} (h : BodyR [c1, c2] false t) : t = t1 ++ t2 := by
  obtain ⟨ta, ra, tb, hca, hb, rfl⟩ := bodyR_cons_inv h
  obtain ⟨tc, rc, td, hcc, hbn, rfl⟩ := bodyR_cons_inv hb
  rw [bodyR_nil_inv hbn, hd1 _ _ (runChild_not_unbounded_inv h1 hca),
    hd2 _ _ (runChild_not_unbounded_inv h2 hcc), List.append_nil]

/-! ### Claim C6 -/

/-- The unbounded child used in the C6 counterexample. -/
def c6Unb : REff := .sec [] false none

/-- `Section([Section([], repeat=None), leaf], repeat=3)` — sequential,
repeat 3, two children, the first being an unbounded Section. -/
def c6Sec : REff := .sec [c6Unb, .leaf 2 (some 1)] false (some 3)

/-- C6 counterexample: for a sequential Section with `repeat = 3` whose
first child is an unbounded (`repeat=None`) Section, the parent's `run()`
terminates — spawning the first child as a background task on each of the 3
iterations — even though the first child's `run()` never completes.  So it
is not the case that each child's `run()` is awaited to completion before
the next child starts. -/
theorem c6_counterexample :
    RunR c6Sec
      [.spawn c6Unb, .act 2, .spawn c6Unb, .act 2, .spawn c6Unb, .act 2]
      .retNone ∧
    (∀ t r, RunR c6Sec t r →
      t = [.spawn c6Unb, .act 2, .spawn c6Unb, .act 2, .spawn c6Unb, .act 2]) ∧
    ¬ ∃ t r, RunR c6Unb t r := by
  have hbody : BodyR [c6Unb, .leaf 2 (some 1)] false
      ([.spawn c6Unb] ++ ([.act 2] ++ [])) := by
    exact BodyR.seqCons (RunChild.spawn [] false)
      (BodyR.seqCons (RunChild.await rfl (RunR.leaf 2 1)) BodyR.seqNil)
  have hbody' : ∀ t, BodyR [c6Unb, .leaf 2 (some 1)] false t →
      t = [.spawn c6Unb, .act 2] := by
    intro t h
    obtain ⟨ta, ra, tb, hca, hb, rfl⟩ := bodyR_cons_inv h
    obtain ⟨tc, rc, td, hcc, hbn, rfl⟩ := bodyR_cons_inv hb
    obtain ⟨rfl, -⟩ := runChild_unbounded_inv hca
    have hleaf := runR_leaf_inv (runChild_not_unbounded_inv rfl hcc)
    rw [hleaf.1, bodyR_nil_inv hbn]
    rfl
  refine ⟨?_, ?_, unbounded_sec_no_run⟩
  · refine RunR.sec 3 (show IterR _ _ 3 _ from ?_)
    have := IterR.succ hbody (IterR.succ hbody (IterR.succ hbody
      (IterR.zero [c6Unb, .leaf 2 (some 1)] false)))
    simpa using this
  · intro t r h
    obtain ⟨hiter, -⟩ := runR_sec_inv h
    have h3 : ((3 : Int)).toNat = 3 := rfl
    rw [h3] at hiter
    obtain ⟨b1, r1, hb1, hi1, rfl⟩ := iterR_succ_inv hiter
    obtain ⟨b2, r2, hb2, hi2, rfl⟩ := iterR_succ_inv hi1
    obtain ⟨b3, r3, hb3, hi3, rfl⟩ := iterR_succ_inv hi2
    rw [hbody' _ hb1, hbody' _ hb2, hbody' _ hb3, iterR_zero_inv hi3]
    rfl

/-- C6 (amended): a sequential Section with `repeat = 3` and two children,
*neither of which is an unbounded Section*, runs each child exactly 3 times,
children in list order within each iteration, each child's `run()` awaited
to completion before the next child starts; when moreover each child's
terminating trace is unique, the Section's trace is exactly the 3-fold
concatenation (no interleaving). -/
theorem c6_sequential_repeat (c1 c2 : REff) (t1 t2 : List Ev) (r1 r2 : RetV)
    (h1 : isUnboundedSection c1 = false) (h2 : isUnboundedSection c2 = false)
    (hr1 : RunR c1 t1 r1) (hr2 : RunR c2 t2 r2)
    (hd1 : ∀ t r, RunR c1 t r → t = t1) (hd2 : ∀ t r, RunR c2 t r → t = t2) :
    RunR (.sec [c1, c2] false (some 3))
      (t1 ++ t2 ++ (t1 ++ t2) ++ (t1 ++ t2)) .retNone ∧
    ∀ t r, RunR (.sec [c1, c2] false (some 3)) t r →
      t = t1 ++ t2 ++ (t1 ++ t2) ++ (t1 ++ t2) ∧ r = .retNone := by
  have hbody : BodyR [c1, c2] false (t1 ++ (t2 ++ [])) :=
    BodyR.seqCons (RunChild.await h1 hr1)
      (BodyR.seqCons (RunChild.await h2 hr2) BodyR.seqNil)
  constructor
  · refine RunR.sec 3 (show IterR _ _ 3 _ from ?_)
    have := IterR.succ hbody (IterR.succ hbody (IterR.succ hbody
      (IterR.zero [c1, c2] false)))
    simpa [List.append_assoc] using this
  · intro t r h
    obtain ⟨hiter, hrn⟩ := runR_sec_inv h
    have h3 : ((3 : Int)).toNat = 3 := rfl
    rw [h3] at hiter
    obtain ⟨b1, q1, hb1, hi1, rfl⟩ := iterR_succ_inv hiter
    obtain ⟨b2, q2, hb2, hi2, rfl⟩ := iterR_succ_inv hi1
    obtain ⟨b3, q3, hb3, hi3, rfl⟩ := iterR_succ_inv hi2
    rw [body_two_inv h1 h2 hd1 hd2 hb1, body_two_inv h1 h2 hd1 hd2 hb2,
      body_two_inv h1 h2 hd1 hd2 hb3, iterR_zero_inv hi3]
    exact ⟨by simp [List.append_assoc], hrn⟩

/-- C6 witness: two bounded leaf children (`repeat=1` each, ids 1 and 2)
run 3 times each, strictly alternating in list order. -/
theorem c6_sequential_repeat_witness :
    RunR (.sec [.leaf 1 (some 1), .leaf 2 (some 1)] false (some 3))
      [.act 1, .act 2, .act 1, .act 2, .act 1, .act 2] .retNone := by
  have h := c6_sequential_repeat (.leaf 1 (some 1)) (.leaf 2 (some 1))
    [.act 1] [.act 2] .retNone .retNone rfl rfl
    (RunR.leaf 1 1) (RunR.leaf 2 1)
    (fun t r hr => (runR_leaf_inv hr).1)
    (fun t r hr => (runR_leaf_inv hr).1)
  simpa using h.1

/-! ## CustomEffect (`specialeffects.py`, lines 49–63)

`CustomEffect.__init__(self, func, *args, **kwargs)` calls
`super().__init__(repeat=1)` and stores the callable with its arguments.
Because the signature has no `repeat` parameter, a caller-supplied `repeat`
keyword lands in `**kwargs` and is forwarded verbatim to `func`.
-/

/-- Opaque Python argument values. -/
inductive PyVal where
  | int (n : Int)
  | str (s : String)
  | bool (b : Bool)
  | pyNone
deriving DecidableEq

/-- One invocation of a callable with its positional and keyword arguments. -/
structure FuncCall where
  func : Nat
  args : List PyVal
  kwargs : List (String × PyVal)
deriving DecidableEq

/-- The attributes a `CustomEffect` holds after `__init__`. -/
structure CustomEffectObj where
  repeatCount : Option Int
  func : Nat
  args : List PyVal
  kwargs : List (String × PyVal)
deriving DecidableEq

/-- `CustomEffect.__init__`: the base repeat is hard-wired to 1
(`super().__init__(repeat=1)`); `args` and `kwargs` are stored unchanged. -/
def customEffectInit (func : Nat) (args : List PyVal)
    (kwargs : List (String × PyVal)) : CustomEffectObj :=
  ⟨some 1, func, args, kwargs⟩

/-- `CustomEffect.run` → `_run_custom_effect` → `to_thread(_execute_func)` →
`self.func(*self.args, **self.kwargs)`: exactly one invocation, with exactly
the stored arguments (no repeat loop consults `self.repeat`). -/
def customEffectRun (e : CustomEffectObj) : List FuncCall :=
  [⟨e.func, e.args, e.kwargs⟩]

/-! ## The SpecialEffect builder (`specialeffects.py`, lines 95–213)

Python object identity matters here: re-opening a named section builds a
*new* `Section` object around the *same* (shared, mutable) `effects` list.
The model therefore keeps an explicit heap: `sections` is the arena of all
`Section` objects ever constructed by `section()` (indexed by allocation
order, which models object identity), and `lists` is the arena of `effects`
list objects (a `Section` stores the index of its list, so two `Section`s
can share one list).  Leaf effect objects are represented structurally,
which is adequate because the only identity test in the source
(`new_section not in ...`) compares a `Section` against list members, and a
`Section` is never identical to a leaf effect.
-/

/-- What a leaf effect closure does, as recorded by the `add_*` builders. -/
inductive LeafKind where
  | lightOn (name : String)
  | lightOff (name : String)
  | lightColor (name : String) (color : ℚ × ℚ × ℚ)
  | colorTransition (name : String) (startColor endColor : ℚ × ℚ × ℚ)
      (duration : ℚ) (easingName : String)
  | delay (seconds : ℚ)
  | sound (file : String)
  | custom (func : Nat) (args : List PyVal) (kwargs : List (String × PyVal))
deriving DecidableEq

/-- An element of an `effects` list: a leaf effect object, or a reference to
a `Section` object in the arena. -/
inductive BEff where
  | leaf (k : LeafKind)
  | sec (sid : Nat)
deriving DecidableEq

/-- The attributes of a `Section` object created by `SpecialEffect.section`:
the index of its (possibly shared) `effects` list, `parallel`, `repeat`, and
`name`. -/
structure SectionObj where
  listId : Nat
  parallel : Bool
  repeatCount : Option Int
  name : Option String
deriving DecidableEq

/-- The state of a `SpecialEffect` instance, plus the two object arenas. -/
structure SEState where
  lights : List (String × Nat)
  lightGroups : List (String × List Nat)
  effects : List BEff
  namedEffects : List (String × Nat)
  currentSection : Option Nat
  sections : List SectionObj
  lists : List (List BEff)
deriving DecidableEq

/-- `SpecialEffect.__init__`: empty registries, no current section. -/
def specialEffectInit : SEState :=
  ⟨[], [], [], [], none, [], []⟩

/-- `add_light(name, light)`: `self.lights[name] = light` (dict overwrite is
modelled by prepending, since `List.lookup` takes the first match). -/
def addLight (st : SEState) (name : String) (device : Nat) : SEState :=
  { st with lights := (name, device) :: st.lights }

/-- `add_light_group(name, *light_names)`: a snapshot resolving each member
against the *currently* registered lights, silently skipping unregistered
names (`[self.lights[ln] for ln in light_names if ln in self.lights]`). -/
def addLightGroup (st : SEState) (name : String)
    (lightNames : List String) : SEState :=
  { st with lightGroups :=
      (name, lightNames.filterMap fun ln => List.lookup ln st.lights)
        :: st.lightGroups }

/-- `_add_effect(effect)`: append to the current section's `effects` list if
a section scope is open, else to the top-level list.  Appending to a
section's list mutates the shared list object in the `lists` arena. -/
def addEffect (st : SEState) (e : BEff) : SEState :=
  match st.currentSection with
  | some sid =>
    match st.sections.get? sid with
    | some sob =>
      { st with lists :=
          st.lists.set sob.listId ((st.lists.getD sob.listId []) ++ [e]) }
    | none => st
  | none => { st with effects := st.effects ++ [e] }

/-- `add_light_on(name)` -/
def addLightOn (st : SEState) (name : String) : SEState :=
  addEffect st (.leaf (.lightOn name))

/-- `add_light_off(name)` -/
def addLightOff (st : SEState) (name : String) : SEState :=
  addEffect st (.leaf (.lightOff name))

/-- `add_light_color(name, color)`: builds a closure over `name` and
`color` and appends it; no validation happens at build time. -/
def addLightColor (st : SEState) (name : String) (color : ℚ × ℚ × ℚ) :
    SEState :=
  addEffect st (.leaf (.lightColor name color))

/-- `add_light_color_transition(...)`: builds a closure and appends it; the
easing name is *not* looked up here. -/
def addLightColorTransition (st : SEState) (name : String)
    (startColor endColor : ℚ × ℚ × ℚ) (duration : ℚ) (easingName : String) :
    SEState :=
  addEffect st (.leaf (.colorTransition name startColor endColor duration
    easingName))

/-- `add_delay(seconds)` -/
def addDelay (st : SEState) (seconds : ℚ) : SEState :=
  addEffect st (.leaf (.delay seconds))

/-- `add_sound(sound_file, player=None)` (the player capability is outside
the model). -/
def addSound (st : SEState) (file : String) : SEState :=
  addEffect st (.leaf (.sound file))

/-- `add_custom(func, *args, **kwargs)`: wraps the callable in a
`CustomEffect` and appends it. -/
def addCustom (st : SEState) (func : Nat) (args : List PyVal)
    (kwargs : List (String × PyVal)) : SEState :=
  addEffect st (.leaf (.custom func args kwargs))

/-- Python truthiness of the `name` argument (`if name ...`): `None` and the
empty string are falsy. -/
def truthyName : Option String → Bool
  | none => false
  | some s => !(s == "")

/-- The first half of the `section(...)` context manager, up to `yield`:
either re-open a named section (a **new** `Section` object sharing the
existing object's `effects` list) or create a fresh one (registering it
under `name` when `name` is truthy); save the previous current section and
make the new object current.  Returns the new object's id and the saved
previous current section. -/
def sectionEnter (st : SEState) (name : Option String)
    (parallel : Option Bool) (repeatArg : Option Int) :
    SEState × Nat × Option Nat :=
  let newSid := st.sections.length
  match
    if truthyName name then
      name.bind fun n => List.lookup n st.namedEffects
    else none with
  | some oldSid =>
    -- `Section(self.named_effects[name].effects, parallel if ... else
    -- self.named_effects[name].parallel, repeat, name)` — same list object
    let old := st.sections.getD oldSid ⟨0, false, some 1, none⟩
    let sob : SectionObj := ⟨old.listId, parallel.getD old.parallel,
      repeatArg, name⟩
    ({ st with sections := st.sections ++ [sob],
               currentSection := some newSid },
     newSid, st.currentSection)
  | none =>
    -- `Section([], parallel if ... else False, repeat, name)` — fresh list
    let newListId := st.lists.length
    let sob : SectionObj := ⟨newListId, parallel.getD false, repeatArg, name⟩
    let named :=
      if truthyName name then
        (name.getD "", newSid) :: st.namedEffects
      else st.namedEffects
    ({ st with lists := st.lists ++ [[]],
               sections := st.sections ++ [sob],
               namedEffects := named,
               currentSection := some newSid },
     newSid, st.currentSection)

/-- The second half of `section(...)`, after `yield`: restore the previous
current section, then link the new object into its parent (the previous
section's list, or the top-level list) unless it is already a member.
Membership is Python `in` over object identity, which for a `Section`
against arena ids is equality of `sid`s. -/
def sectionExit (st : SEState) (newSid : Nat) (prev : Option Nat) : SEState :=
  let st1 := { st with currentSection := prev }
  match prev with
  | some p =>
    match st1.sections.get? p with
    | some psob =>
      let plist := st1.lists.getD psob.listId []
      if BEff.sec newSid ∈ plist then st1
      else { st1 with
        lists := st1.lists.set psob.listId (plist ++ [.sec newSid]) }
    | none => st1
  | none =>
    if BEff.sec newSid ∈ st1.effects then st1
    else { st1 with effects := st1.effects ++ [.sec newSid] }

/-! ## Target resolution and leaf execution
(`specialeffects.py`, `_get_targets` and the `add_*` closures;
`easing.py`, `interpolate_color_over_time`)
-/

/-- Exceptions the modelled code can raise. -/
inductive Err where
  | lightNotFound (name : String)
  | keyError (name : String)
deriving DecidableEq

/-- The user-visible message of each exception.  `lightNotFound` carries the
f-string of `_get_targets`; `keyError` is the `KeyError` raised by
`globals()[easing_func]`, whose payload is the missing key. -/
def Err.message : Err → String
  | .lightNotFound n => "Light or group " ++ n ++ " not found."
  | .keyError n => n

/-- Observable side effects of running leaf closures against the capability
interfaces. -/
inductive Act where
  | turnOn (device : Nat)
  | turnOff (device : Nat)
  | setColor (device : Nat) (color : ℚ × ℚ × ℚ)
  | sleep (seconds : ℚ)
  | playSound (file : String)
  | call (func : Nat) (args : List PyVal) (kwargs : List (String × PyVal))
deriving DecidableEq

/-- `_get_targets(name)`:
`targets = self.lights.get(name) or self.light_groups.get(name)`.
A registered device object is truthy, so when `name` is in `lights` the
`or` yields that single device (wrapped in a list by the `isinstance`
check); otherwise the `or` yields `self.light_groups.get(name)` — note that
an *empty* group yields `[]`, which `is not None`, so no error is raised.
Only when both lookups give `None` does it raise
`ValueError(f"Light or group '{name}' not found.")`. -/
def getTargets (st : SEState) (name : String) : Except Err (List Nat) :=
  match List.lookup name st.lights with
  | some d => .ok [d]
  | none =>
    match List.lookup name st.lightGroups with
    | some ds => .ok ds
    | none => .error (.lightNotFound name)

/-- The globals of the `easing` module, as reached by
`globals()[easing_func]` in `interpolate_color_over_time`: the ten easing
functions plus the module's other top-level names.  Any other string raises
`KeyError`. -/
inductive PyGlobal where
  | linearG | quadraticInG | quadraticOutG | quadraticInOutG
  | cubicInG | cubicOutG | cubicInOutG
  | sineInG | sineOutG | sineInOutG
  | asyncioG | mathG | interpolateColorG | interpolateColorOverTimeG
deriving DecidableEq

/-- String-keyed lookup into the easing module's globals. -/
def easingGlobal (s : String) : Option PyGlobal :=
  if s = "linear" then some .linearG
  else if s = "quadratic_in" then some .quadraticInG
  else if s = "quadratic_out" then some .quadraticOutG
  else if s = "quadratic_in_out" then some .quadraticInOutG
  else if s = "cubic_in" then some .cubicInG
  else if s = "cubic_out" then some .cubicOutG
  else if s = "cubic_in_out" then some .cubicInOutG
  else if s = "sine_in" then some .sineInG
  else if s = "sine_out" then some .sineOutG
  else if s = "sine_in_out" then some .sineInOutG
  else if s = "asyncio" then some .asyncioG
  else if s = "math" then some .mathG
  else if s = "interpolate_color" then some .interpolateColorG
  else if s = "interpolate_color_over_time" then some .interpolateColorOverTimeG
  else none

/-- Execution of one leaf closure (the body of one `run()` iteration).

For `colorTransition`, the closure first resolves the targets
(`targets = self._get_targets(name)`), then the `async for` requests the
first element of the `interpolate_color_over_time` generator, whose body
begins with `globals()[easing_func]` — so the easing lookup happens at run
time, after target resolution, and raises `KeyError` for an unknown name.
The per-sample `set_color` actions of a successful transition depend on
wall-clock sampling and are not modelled (the successful case returns no
recorded actions). -/
def runLeafE (st : SEState) : LeafKind → Except Err (List Act)
  | .lightOn name =>
    (getTargets st name).map fun ts => ts.map Act.turnOn
  | .lightOff name =>
    (getTargets st name).map fun ts => ts.map Act.turnOff
  | .lightColor name color =>
    (getTargets st name).map fun ts => ts.map fun d => Act.setColor d color
  | .colorTransition name _ _ _ easingName =>
    match getTargets st name with
    | .error e => .error e
    | .ok _ =>
      match easingGlobal easingName with
      | some _ => .ok []
      | none => .error (.keyError easingName)
  | .delay s => .ok [.sleep s]
  | .sound file => .ok [.playSound file]
  | .custom func args kwargs => .ok [.call func args kwargs]

/-- The `_run_effect` test on a builder effect: is it a `Section` object
with `repeat is None`? -/
def isUnbSecB (st : SEState) : BEff → Bool
  | .sec sid =>
    match st.sections.get? sid with
    | some sob => sob.repeatCount.isNone
    | none => false
  | .leaf _ => false

/-- Combine one loop-body pass with a bounded repeat count `n`.  The model
state never changes while running, so every iteration behaves identically:
a failing pass raises on the first iteration, a successful pass is repeated
`n` times, and `range(n)` of `n = 0` performs nothing. -/
def itersBE (pass : Option (Except Err (List Act))) (n : Nat) :
    Option (Except Err (List Act)) :=
  if n = 0 then some (.ok [])
  else
    match pass with
    | none => none
    | some (.error e) => some (.error e)
    | some (.ok acts) => some (.ok (List.replicate n acts).flatten)

/-- An unbounded (`repeat=None`) loop that is being awaited: a failing pass
raises on the first iteration; otherwise the loop never finishes. -/
def unboundedBE (pass : Option (Except Err (List Act))) :
    Option (Except Err (List Act)) :=
  match pass with
  | some (.error e) => some (.error e)
  | _ => none

/-- `asyncio.gather` over the children's results: it propagates the first
exception raised by any child (the model picks the first in list order,
abstracting from scheduler timing); with no exception it completes only
when every child completes, concatenating their recorded actions. -/
def gatherBE (rs : List (Option (Except Err (List Act)))) :
    Option (Except Err (List Act)) :=
  match rs.findSome? (fun r =>
      match r with
      | some (.error e) => some e
      | _ => none) with
  | some e => some (.error e)
  | none =>
    if rs.any (·.isNone) then none
    else some (.ok (rs.filterMap (fun r =>
      match r with
      | some (.ok a) => some a
      | _ => none)).flatten)

/-- Sequential execution of a list of children with a given per-child
runner: the first exception (or divergence) aborts the chain, otherwise the
recorded actions are concatenated in list order. -/
def seqFold (f : BEff → Option (Except Err (List Act))) :
    List BEff → Option (Except Err (List Act))
  | [] => some (.ok [])
  | c :: rest =>
    match f c with
    | none => none
    | some (.error e) => some (.error e)
    | some (.ok acts) =>
      match seqFold f rest with
      | none => none
      | some (.error e) => some (.error e)
      | some (.ok acts2) => some (.ok (acts ++ acts2))

/-- `Section._run_effect(effect)` around a given runner: an unbounded
nested `Section` is spawned with `create_task` and the parent proceeds at
once — from the parent's flow it contributes no actions and no exception (a
failure inside the background task is never retrieved, and the `Task`
handle returned here is discarded by `Section.run`); any other child is
awaited inline. -/
def stepWith (st : SEState) (run : BEff → Option (Except Err (List Act)))
    (c : BEff) : Option (Except Err (List Act)) :=
  if isUnbSecB st c then some (.ok []) else run c

/-- `effect.run()` on a builder effect, with `fuel` bounding the depth of
nested awaited `run()` calls (`none` = the call has not finished within the
fuel bound, i.e. it diverges or needs more fuel).  A leaf runs its closure;
a `Section` reads its (possibly shared) children list from the arena and
loops per `Section.run`, running each child through `_run_effect`
(`stepWith`), sequentially or via `gather`. -/
def runBE (st : SEState) : Nat → BEff → Option (Except Err (List Act))
  | 0, _ => none
  | _ + 1, .leaf k => some (runLeafE st k)
  | fuel + 1, .sec sid =>
    match st.sections.get? sid with
    | none => some (.ok [])
    | some sob =>
      let pass :=
        if sob.parallel then
          gatherBE ((st.lists.getD sob.listId []).map
            (stepWith st fun c => runBE st fuel c))
        else
          seqFold (stepWith st fun c => runBE st fuel c)
            (st.lists.getD sob.listId [])
      match sob.repeatCount with
      | some n => itersBE pass n.toNat
      | none => unboundedBE pass

/-- `play()` = `asyncio.run(self._play_async())`: the top-level loop
`for effect in self.effects: result = await effect.run()` awaits each
top-level effect directly (no `_run_effect` special case), aborting on the
first exception.  As proved for the tree semantics (`runR_ret`), every
`run()` returns `None`, so the `isinstance(result, asyncio.Task)` check
collects nothing and the final `gather(*tasks)` awaits an empty list. -/
def playE (st : SEState) (fuel : Nat) : Option (Except Err (List Act)) :=
  seqFold (fun c => runBE st fuel c) st.effects

/-! ### Claim C2: re-opening a named section -/

/-- Open `section(name="a")`, add one effect, close; then re-open
`section(name="a")`, add a second effect, close. -/
def c2Enter1 : SEState × Nat × Option Nat :=
  sectionEnter specialEffectInit (some "a") none (some 1)

def c2St2 : SEState := addEffect c2Enter1.1 (.leaf (.delay 1))

def c2St3 : SEState := sectionExit c2St2 c2Enter1.2.1 c2Enter1.2.2

def c2Enter2 : SEState × Nat × Option Nat :=
  sectionEnter c2St3 (some "a") none (some 1)

def c2St5 : SEState := addEffect c2Enter2.1 (.leaf (.delay 2))

def c2Final : SEState := sectionExit c2St5 c2Enter2.2.1 c2Enter2.2.2

/-- C2 counterexample: after opening `section(name="a")` twice (one effect
added in each scope), the top-level effect list holds **two distinct
`Section` objects** (arena ids 0 and 1 — re-opening constructed a new
`Section` and linked this second object into the tree), not a single
Section reachable from exactly one parent.  The two objects do share one
`effects` list containing both added effects in order, and the registry
still maps "a" to the first object. -/
theorem c2_counterexample :
    c2Final.effects = [.sec 0, .sec 1] ∧
    BEff.sec 0 ≠ BEff.sec 1 ∧
    c2Final.sections.length = 2 ∧
    (c2Final.sections.getD 0 ⟨0, false, none, none⟩).listId = 0 ∧
    (c2Final.sections.getD 1 ⟨0, false, none, none⟩).listId = 0 ∧
    c2Final.lists.getD 0 [] = [.leaf (.delay 1), .leaf (.delay 2)] ∧
    List.lookup "a" c2Final.namedEffects = some 0 :=
  ⟨rfl, by decide, rfl, rfl, rfl, rfl, rfl⟩

/-- The general two-scope scenario: open `section(name=n)` (repeat `rep1`),
add `k1`, close; re-open `section(name=n)` (parallel `par2`, repeat `rep2`),
add `k2`, close. -/
def c2Scenario (n : String) (k1 k2 : LeafKind) (par2 : Option Bool)
    (rep1 rep2 : Option Int) : SEState :=
  let e1 := sectionEnter specialEffectInit (some n) none rep1
  let s3 := sectionExit (addEffect e1.1 (.leaf k1)) e1.2.1 e1.2.2
  let e2 := sectionEnter s3 (some n) par2 rep2
  sectionExit (addEffect e2.1 (.leaf k2)) e2.2.1 e2.2.2

/-- C2 (amended): for every non-empty name and any two effects added in two
successive `section(name=...)` scopes, re-opening creates a **new** Section
object (arena id 1) that *shares* the first object's (id 0) `effects` list,
so both objects contain both effects in addition order; the top-level list
links **both** objects, the named registry still points at the first, and
the second object carries the second call's repeat argument. -/
theorem c2_reopen_shares_list (n : String) (hn : n ≠ "") (k1 k2 : LeafKind)
    (par2 : Option Bool) (rep1 rep2 : Option Int) :
    (c2Scenario n k1 k2 par2 rep1 rep2).effects = [.sec 0, .sec 1] ∧
    (c2Scenario n k1 k2 par2 rep1 rep2).sections.length = 2 ∧
    ((c2Scenario n k1 k2 par2 rep1 rep2).sections.getD 0
      ⟨0, false, none, none⟩).listId = 0 ∧
    ((c2Scenario n k1 k2 par2 rep1 rep2).sections.getD 1
      ⟨0, false, none, none⟩).listId = 0 ∧
    (c2Scenario n k1 k2 par2 rep1 rep2).lists.getD 0 []
      = [.leaf k1, .leaf k2] ∧
    List.lookup n (c2Scenario n k1 k2 par2 rep1 rep2).namedEffects
      = some 0 ∧
    ((c2Scenario n k1 k2 par2 rep1 rep2).sections.getD 1
      ⟨0, false, none, none⟩).repeatCount = rep2 := by
  have hb : (n == "") = false := beq_eq_false_iff_ne.mpr hn
  simp [c2Scenario, specialEffectInit, sectionEnter, sectionExit, addEffect,
    truthyName, hb, List.lookup]

/-- C2 witness: the amended statement at name "a", two delay effects, and
`repeat=2` on the re-opening call. -/
theorem c2_reopen_shares_list_witness :
    (c2Scenario "a" (.delay 1) (.delay 2) none (some 1) (some 2)).effects
      = [.sec 0, .sec 1] ∧
    (c2Scenario "a" (.delay 1) (.delay 2) none (some 1) (some 2)).lists.getD 0 []
      = [.leaf (.delay 1), .leaf (.delay 2)] :=
  have h := c2_reopen_shares_list "a" (by decide) (.delay 1) (.delay 2)
    none (some 1) (some 2)
  ⟨h.1, h.2.2.2.2.1⟩

/-! ### Claims C5, C7, C9, C10 -/

/-- Running a single leaf at fuel 1 just runs its closure. -/
theorem runBE_one_leaf (st : SEState) (k : LeafKind) :
    runBE st 1 (.leaf k) = some (runLeafE st k) := rfl

/-- The concrete C5 program: one registered light "l", then
`add_light_color_transition("l", ..., easing_type="bogus")`. -/
def c5State : SEState :=
  addLightColorTransition (addLight specialEffectInit "l" 0) "l"
    (0, 0, 0) (10, 10, 10) 1 "bogus"

/-- C5 counterexample: with the unknown easing name "bogus",
`add_light_color_transition` does **not** raise — it completes normally and
appends the transition effect — and the `KeyError` naming "bogus" only
surfaces later, from `play()`, when the leaf effect executes and the
generator performs `globals()[easing_func]`.  So the error is not raised at
the operation that received the name, contrary to the claim. -/
theorem c5_counterexample :
    c5State.effects
      = [.leaf (.colorTransition "l" (0, 0, 0) (10, 10, 10) 1 "bogus")] ∧
    easingGlobal "bogus" = none ∧
    playE c5State 1 = some (.error (.keyError "bogus")) :=
  ⟨rfl, rfl, rfl⟩

/-- C5 (amended): for every state with a registered target and every easing
name missing from the easing module's globals, the `add_*` call completes
normally (the effect is appended with the easing name stored verbatim), and
the `KeyError` carrying exactly that name is raised when the effect first
executes during `play()` — after target resolution, at the first step of
the generator.  There is no fallback to `linear`: the lookup either finds
the exact name or raises. -/
theorem c5_easing_error_at_play (st : SEState) (name : String) (d : Nat)
    (sc ec : ℚ × ℚ × ℚ) (dur : ℚ) (ename : String)
    (hcur : st.currentSection = none) (heff : st.effects = [])
    (hl : List.lookup name st.lights = some d)
    (he : easingGlobal ename = none) :
    (addLightColorTransition st name sc ec dur ename).effects
      = [.leaf (.colorTransition name sc ec dur ename)] ∧
    playE (addLightColorTransition st name sc ec dur ename) 1
      = some (.error (.keyError ename)) := by
  have heffs : (addLightColorTransition st name sc ec dur ename).effects
      = [.leaf (.colorTransition name sc ec dur ename)] := by
    simp [addLightColorTransition, addEffect, hcur, heff]
  refine ⟨heffs, ?_⟩
  have hl2 : List.lookup name
      (addLightColorTransition st name sc ec dur ename).lights = some d := by
    simp [addLightColorTransition, addEffect, hcur, hl]
  rw [playE, heffs]
  simp [seqFold, runBE_one_leaf, runLeafE, getTargets, hl2, he]

/-- C5 witness: the amended statement at the concrete "bogus" program. -/
theorem c5_easing_error_at_play_witness :
    playE (addLightColorTransition (addLight specialEffectInit "l" 0) "l"
      (0, 0, 0) (10, 10, 10) 1 "bogus") 1
      = some (.error (.keyError "bogus")) :=
  (c5_easing_error_at_play (addLight specialEffectInit "l" 0) "l" 0
    (0, 0, 0) (10, 10, 10) 1 "bogus" rfl rfl rfl rfl).2

/-- C7: for every state in which "missing_name" is registered neither as a
light nor as a group, `add_light_color("missing_name", color)` succeeds at
build time (the leaf is appended, nothing is validated), and the subsequent
`play()` raises the target-not-found `ValueError` carrying the missing
name, from `_get_targets` at the moment the leaf effect executes. -/
theorem c7_missing_target (st : SEState) (color : ℚ × ℚ × ℚ)
    (hcur : st.currentSection = none) (heff : st.effects = [])
    (hl : List.lookup "missing_name" st.lights = none)
    (hg : List.lookup "missing_name" st.lightGroups = none) :
    (addLightColor st "missing_name" color).effects
      = [.leaf (.lightColor "missing_name" color)] ∧
    playE (addLightColor st "missing_name" color) 1
      = some (.error (.lightNotFound "missing_name")) := by
  have heffs : (addLightColor st "missing_name" color).effects
      = [.leaf (.lightColor "missing_name" color)] := by
    simp [addLightColor, addEffect, hcur, heff]
  refine ⟨heffs, ?_⟩
  have hl2 : List.lookup "missing_name"
      (addLightColor st "missing_name" color).lights = none := by
    simp [addLightColor, addEffect, hcur, hl]
  have hg2 : List.lookup "missing_name"
      (addLightColor st "missing_name" color).lightGroups = none := by
    simp [addLightColor, addEffect, hcur, hg]
  rw [playE, heffs]
  simp [seqFold, runBE_one_leaf, runLeafE, getTargets, hl2, hg2, Except.map]

/-- C7 witness: the empty orchestrator, one `add_light_color` on an
unregistered name, then `play()`. -/
theorem c7_missing_target_witness :
    playE (addLightColor specialEffectInit "missing_name" (0, 0, 0)) 1
      = some (.error (.lightNotFound "missing_name")) :=
  (c7_missing_target specialEffectInit (0, 0, 0) rfl rfl rfl rfl).2

/-- C9: `add_custom(func, *args, **kwargs)` produces a `CustomEffect` whose
base repeat is pinned to 1 and whose `run()` makes exactly one invocation of
`func` with exactly the stored positional and keyword arguments — in
particular a caller-supplied `repeat` keyword is not consumed as a repeat
count but forwarded verbatim to `func` inside `kwargs`. -/
theorem c9_custom_effect_forwards (func : Nat) (args : List PyVal)
    (kwargs : List (String × PyVal)) (v : PyVal) (st : SEState) :
    (customEffectInit func args kwargs).repeatCount = some 1 ∧
    customEffectRun (customEffectInit func args kwargs)
      = [⟨func, args, kwargs⟩] ∧
    (customEffectRun (customEffectInit func args kwargs)).length = 1 ∧
    customEffectRun (customEffectInit func args (("repeat", v) :: kwargs))
      = [⟨func, args, ("repeat", v) :: kwargs⟩] ∧
    runLeafE st (.custom func args kwargs) = .ok [.call func args kwargs] ∧
    addCustom st func args kwargs
      = addEffect st (.leaf (.custom func args kwargs)) :=
  ⟨rfl, rfl, rfl, rfl, rfl, rfl⟩

/-- C10: a group whose member names were all unregistered at group-creation
time resolves to the empty target list, so a light effect addressed to that
group completes without a target-not-found error and performs no device
action (`play()` succeeds with an empty action list). -/
theorem c10_empty_group (st : SEState) (g : String) (members : List String)
    (color : ℚ × ℚ × ℚ)
    (hm : ∀ m ∈ members, List.lookup m st.lights = none)
    (hgl : List.lookup g st.lights = none)
    (hcur : st.currentSection = none) (heff : st.effects = []) :
    List.lookup g (addLightGroup st g members).lightGroups = some [] ∧
    getTargets (addLightColor (addLightGroup st g members) g color) g
      = .ok [] ∧
    playE (addLightColor (addLightGroup st g members) g color) 1
      = some (.ok []) := by
  have hfm : members.filterMap (fun ln => List.lookup ln st.lights) = [] :=
    List.filterMap_eq_nil_iff.mpr hm
  have hgrp : List.lookup g (addLightGroup st g members).lightGroups
      = some [] := by
    simp [addLightGroup, List.lookup, hfm]
  have hgl2 : List.lookup g
      (addLightColor (addLightGroup st g members) g color).lights = none := by
    simp [addLightColor, addLightGroup, addEffect, hcur, hgl]
  have hgrp2 : List.lookup g
      (addLightColor (addLightGroup st g members) g color).lightGroups
      = some [] := by
    simp [addLightColor, addLightGroup, addEffect, hcur, List.lookup, hfm]
  have htgt : getTargets (addLightColor (addLightGroup st g members) g color) g
      = .ok [] := by
    simp [getTargets, hgl2, hgrp2]
  have heffs : (addLightColor (addLightGroup st g members) g color).effects
      = [.leaf (.lightColor g color)] := by
    simp [addLightColor, addLightGroup, addEffect, hcur, heff]
  refine ⟨hgrp, htgt, ?_⟩
  rw [playE, heffs]
  simp [seqFold, runBE_one_leaf, runLeafE, htgt, Except.map]

/-- C10 witness: a group "g" of two never-registered members, then
`add_light_color("g", ...)` and `play()`. -/
theorem c10_empty_group_witness :
    playE (addLightColor (addLightGroup specialEffectInit "g" ["m1", "m2"])
      "g" (0, 0, 0)) 1 = some (.ok []) :=
  (c10_empty_group specialEffectInit "g" ["m1", "m2"] (0, 0, 0)
    (by intro m hm; rfl) rfl rfl rfl).2.2

end SpecialEffectsModel
